import Mathlib

/-!
# Verification of the personal-os entity/reconciliation core

Shallow embedding of the core of the repository:

* `src/storage/schema.py` — the `EntityLineage` record and the lineage
  resolver `StorageSchema.resolve_current_entity_id`;
* `src/scripts/hybrid_entity_resolution_with_lineage.py` — the merge pass
  `_merge_duplicates_with_lineage` and the counts of the merge report
  assembled in `run_merge_with_lineage`;
* `src/scripts/reconcile_with_decisions.py` — `create_reconciliation_decision`;
* `src/scripts/migrate_to_schema.py` — `generate_statement_id`.

Python dicts of entities are embedded as association lists (first match wins,
as for a dict with unique keys); Python floats are embedded as `ℚ`; calls to
`datetime.now()` are embedded as an explicit `now : String` parameter; a
Python `KeyError` is embedded as `Except.error` carrying the missing key.
-/

namespace PersonalOS

/-- Python `f"{n:06d}"`: decimal rendering of `n` left-padded with zeros to
at least six characters. -/
def pad6 (n : Nat) : String :=
  let s := toString n
  String.mk (List.replicate (6 - s.length) '0') ++ s

/-- Lookup in a Python dict embedded as an association list: the value at the
first matching key, if any. -/
def dictGet {α : Type} (m : List (String × α)) (k : String) : Option α :=
  (m.find? (fun p => p.1 == k)).map (fun p => p.2)

/-- Python `d[k] = v` on a dict embedded as an association list: replace the
value at an existing key in place (keeping its position), otherwise append
the new binding at the end. -/
def dictSet {α : Type} : List (String × α) → String → α → List (String × α)
  | [], k, v => [(k, v)]
  | p :: t, k, v => if p.1 == k then (k, v) :: t else p :: dictSet t k v

/-- The `metadata` dict written by the merge engine into each lineage record
(`hybrid_entity_resolution_with_lineage.py`, lines 177-182). -/
structure MergeMetadata where
  merged_canonical_name : Option String
  primary_canonical_name : Option String
  transaction_count_transferred : Int
  amount_transferred : ℚ
  deriving Repr, DecidableEq

/-- `storage.schema.EntityLineage`, with `metadata` at the shape the merge
engine writes.  Only `old_entity_id`/`new_entity_id` matter to the resolver. -/
structure EntityLineage where
  lineage_id : String
  timestamp : String
  old_entity_id : String
  new_entity_id : String
  operation : String
  reason : String
  confidence : ℚ
  performed_by : String
  affected_statement_ids : List String
  metadata : MergeMetadata
  created_at : String
  deriving Repr, DecidableEq

/-- An entity record of the entity registry file.  Every field a Python dict
may lack is an `Option`; `.get(key, default)` becomes `Option.getD`. -/
structure Entity where
  canonical_name : Option String := none
  aliases : Option (List String) := none
  transaction_count : Option Int := none
  total_amount_usd : Option ℚ := none
  merged_from : Option (List String) := none
  last_merged : Option String := none
  lineage_id : Option String := none
  status : Option String := none
  superseded_by : Option String := none
  superseded_at : Option String := none
  deriving Repr, DecidableEq

/-- One entry of the `merge_log` list (lines 221-227). -/
structure MergeLogEntry where
  primary : String
  secondary : String
  similarity : ℚ
  timestamp : String
  lineage_id : String
  deriving Repr, DecidableEq

/-- The mutable state threaded through `_merge_duplicates_with_lineage`:
the working copy of the entity dict, the merge log, the `merged_ids` set,
and the `self.entity_lineages` / `self.lineage_counter` fields of the job. -/
structure MergeRunState where
  merged_entities : List (String × Entity)
  merge_log : List MergeLogEntry
  merged_ids : List String
  entity_lineages : List EntityLineage
  lineage_counter : Nat
  deriving Repr, DecidableEq

/-- The body of the `for id1, id2, similarity in duplicates` loop after the
`merged_ids` guard (lines 148-227).  `Except.error` carries the key of the
Python `KeyError` raised by `merged_entities[id1]` / `merged_entities[id2]`
when the id is absent. -/
def applyMergePair (now : String) (st : MergeRunState) (id1 id2 : String)
    (similarity : ℚ) : Except String MergeRunState :=
  match dictGet st.merged_entities id1 with
  | none => .error id1
  | some entity1 =>
    match dictGet st.merged_entities id2 with
    | none => .error id2
    | some entity2 =>
      let tx_count1 := entity1.transaction_count.getD 0
      let tx_count2 := entity2.transaction_count.getD 0
      -- `if tx_count1 >= tx_count2` selects id1 as primary (lines 155-164)
      let primary_id := if tx_count2 ≤ tx_count1 then id1 else id2
      let secondary_id := if tx_count2 ≤ tx_count1 then id2 else id1
      let primary := if tx_count2 ≤ tx_count1 then entity1 else entity2
      let secondary := if tx_count2 ≤ tx_count1 then entity2 else entity1
      let lineage : EntityLineage :=
        { lineage_id := "lineage_" ++ pad6 st.lineage_counter
          timestamp := now
          old_entity_id := secondary_id
          new_entity_id := primary_id
          operation := "merge"
          reason := "Duplicate detection: similarity " ++ toString similarity
          confidence := similarity
          performed_by := "automated_merge"
          affected_statement_ids := []
          metadata :=
            { merged_canonical_name := secondary.canonical_name
              primary_canonical_name := primary.canonical_name
              -- the source uses `tx_count2` here, line 180
              transaction_count_transferred := tx_count2
              amount_transferred := secondary.total_amount_usd.getD 0 }
          created_at := now }
      let primary' : Entity :=
        { primary with
          aliases := some ((primary.aliases.getD [] ++ secondary.aliases.getD []
            ++ [secondary.canonical_name.getD ""]).dedup)
          transaction_count := some (primary.transaction_count.getD 0
            + secondary.transaction_count.getD 0)
          total_amount_usd := some (primary.total_amount_usd.getD 0
            + secondary.total_amount_usd.getD 0)
          merged_from := some (primary.merged_from.getD [] ++ [secondary_id])
          last_merged := some now
          lineage_id := some lineage.lineage_id }
      let m1 := dictSet st.merged_entities primary_id primary'
      -- in Python `secondary` aliases `primary` when the two ids coincide
      let secondaryObj := if secondary_id = primary_id then primary' else secondary
      let secondary' : Entity :=
        { secondaryObj with
          status := some "superseded"
          superseded_by := some primary_id
          superseded_at := some now
          lineage_id := some lineage.lineage_id }
      let m2 := dictSet m1 secondary_id secondary'
      let entry : MergeLogEntry :=
        { primary := primary_id
          secondary := secondary_id
          similarity := similarity
          timestamp := now
          lineage_id := lineage.lineage_id }
      .ok { merged_entities := m2
            merge_log := st.merge_log ++ [entry]
            -- the source never adds to `merged_ids`
            merged_ids := st.merged_ids
            entity_lineages := st.entity_lineages ++ [lineage]
            lineage_counter := st.lineage_counter + 1 }

/-- The `for id1, id2, similarity in duplicates` loop of
`_merge_duplicates_with_lineage` (lines 144-227), including the
`if id1 in merged_ids or id2 in merged_ids: continue` guard. -/
def mergeLoop (now : String) :
    List (String × String × ℚ) → MergeRunState → Except String MergeRunState
  | [], st => .ok st
  | (id1, id2, similarity) :: rest, st =>
    if id1 ∈ st.merged_ids ∨ id2 ∈ st.merged_ids then
      mergeLoop now rest st
    else
      match applyMergePair now st id1 id2 similarity with
      | .error e => .error e
      | .ok st' => mergeLoop now rest st'

/-- `_merge_duplicates_with_lineage(entities, duplicates)` run from the
job's initial state (`merged_entities = entities.copy()`, empty log, empty
`merged_ids`, `entity_lineages = []`, `lineage_counter = 0`). -/
def merge_duplicates_with_lineage (now : String)
    (entities : List (String × Entity))
    (duplicates : List (String × String × ℚ)) : Except String MergeRunState :=
  mergeLoop now duplicates
    { merged_entities := entities
      merge_log := []
      merged_ids := []
      entity_lineages := []
      lineage_counter := 0 }

/-- The counts of the merge report assembled in `run_merge_with_lineage`
(lines 106-114); `entities_merged` is Python int subtraction. -/
structure MergeReport where
  duplicates_found : Nat
  entities_before : Nat
  entities_after : Nat
  entities_merged : Int
  lineage_records_created : Nat
  deriving Repr, DecidableEq

/-- Builds the report counts from the input collection, the merged
collection, the duplicate list and the lineage records. -/
def mkMergeReport (entities merged_entities : List (String × Entity))
    (duplicates : List (String × String × ℚ))
    (lineages : List EntityLineage) : MergeReport :=
  { duplicates_found := duplicates.length
    entities_before := entities.length
    entities_after := merged_entities.length
    entities_merged := (entities.length : Int) - (merged_entities.length : Int)
    lineage_records_created := lineages.length }

/-! ## Lineage resolver (`storage/schema.py`, lines 481-503) -/

/-- The inner `for record in self.entity_lineage` loop of
`resolve_current_entity_id`: the `new_entity_id` of the first lineage record
whose `old_entity_id` is the current id, if any (`break` after the first
match). -/
def findNewer (ledger : List EntityLineage) (cur : String) : Option String :=
  (ledger.find? (fun r => r.old_entity_id == cur)).map
    (fun r => r.new_entity_id)

/-- Set of all `new_entity_id`s of the ledger; every id the resolver can move
to lies in it.  Used as the bound of the loop's termination measure. -/
def newsFinset (ledger : List EntityLineage) : Finset String :=
  (ledger.map (fun r => r.new_entity_id)).toFinset

/-- The `while current_id not in visited` loop of
`resolve_current_entity_id`: return `cur` once it has been revisited;
otherwise add it to `visited`, follow the first matching lineage edge if one
exists, and return `cur` when there is none. -/
def resolveAux (ledger : List EntityLineage) (cur : String)
    (visited : Finset String) : String :=
  if hnv : cur ∈ visited then cur
  else
    match hstep : findNewer ledger cur with
    | none => cur
    | some next => resolveAux ledger next (insert cur visited)
termination_by ((insert cur (newsFinset ledger)) \ visited).card
decreasing_by
  have hmem : next ∈ newsFinset ledger := by
    unfold findNewer at hstep
    cases hf : ledger.find? (fun r => r.old_entity_id == cur) with
    | none => rw [hf] at hstep; simp at hstep
    | some r =>
      rw [hf] at hstep
      simp only [Option.map_some', Option.some.injEq] at hstep
      have hr : r ∈ ledger := List.mem_of_find?_eq_some hf
      subst hstep
      exact List.mem_toFinset.mpr (List.mem_map_of_mem _ hr)
  have hins : insert next (newsFinset ledger) = newsFinset ledger :=
    Finset.insert_eq_self.mpr hmem
  rw [hins]
  apply Finset.card_lt_card
  constructor
  · intro x hx
    rw [Finset.mem_sdiff] at hx ⊢
    exact ⟨Finset.mem_insert_of_mem hx.1,
      fun hv => hx.2 (Finset.mem_insert_of_mem hv)⟩
  · intro hsub
    have hcur := hsub (Finset.mem_sdiff.mpr ⟨Finset.mem_insert_self _ _, hnv⟩)
    rw [Finset.mem_sdiff] at hcur
    exact hcur.2 (Finset.mem_insert_self _ _)

/-- `StorageSchema.resolve_current_entity_id(entity_id)`, parameterized by
the schema's `entity_lineage` list: starts with `visited = set()`. -/
def resolve_current_entity_id (ledger : List EntityLineage)
    (entity_id : String) : String :=
  resolveAux ledger entity_id ∅

/-- Fuel-indexed variant of the resolver loop, used to state that the loop
always exits within a bounded number of iterations: each constructor step is
one iteration of the `while` loop, and exhausted fuel returns the current id
as-is. -/
def resolveFuel (ledger : List EntityLineage) :
    Nat → String → Finset String → String
  | 0, cur, _ => cur
  | fuel + 1, cur, visited =>
    if cur ∈ visited then cur
    else
      match findNewer ledger cur with
      | none => cur
      | some next => resolveFuel ledger fuel next (insert cur visited)

/-- Iterated stepping along first-matching lineage edges: the id reached from
`cur` after exactly `n` edges, or `none` if the chain runs out before that.
Specification-side device for reasoning about the resolver's walk. -/
def iterNewer (ledger : List EntityLineage) : Nat → String → Option String
  | 0, cur => some cur
  | n + 1, cur =>
    match findNewer ledger cur with
    | none => none
    | some next => iterNewer ledger n next

/-- The set of ids reached from `r` in fewer than `k` steps of the lineage
walk: exactly the visited set after `k` iterations of the resolver loop. -/
def pathFinset (ledger : List EntityLineage) (r : String) (k : Nat) :
    Finset String :=
  ((List.range k).filterMap (fun i => iterNewer ledger i r)).toFinset

/-! ## Reconciliation decision builder (`reconcile_with_decisions.py`) -/

/-- The reconciliation metadata a canonical field carries when its value is a
dict; every key the dict may lack is an `Option`. -/
structure FieldMeta where
  reconciliation_method : Option String := none
  source_observation_id : Option String := none
  confidence : Option ℚ := none
  alternatives : Option (List String) := none
  deriving Repr, DecidableEq

/-- A canonical record field value: either a bare scalar or a dict of
reconciliation metadata (`isinstance(field_data, dict)` distinguishes the
two, line 70). -/
inductive FieldValue where
  | scalar : FieldValue
  | obj : FieldMeta → FieldValue
  deriving Repr, DecidableEq

/-- A canonical transaction record: its `id` and its fields. -/
structure CanonicalRecord where
  id : String
  fields : List (String × FieldValue)
  deriving Repr, DecidableEq

/-- An input observation; only the keys `create_reconciliation_decision`
reads are embedded. -/
structure Obs where
  observation_id : Option String := none
  id : Option String := none
  data_source : Option String := none
  observer : Option String := none
  deriving Repr, DecidableEq

/-- One value of the `field_strategies` dict (lines 75-80). -/
structure FieldStrategy where
  strategy : String
  chosen_obs : String
  confidence : ℚ
  alternatives : List String
  deriving Repr, DecidableEq

/-- `storage.schema.ReconciliationDecision` as populated by
`create_reconciliation_decision`; `cluster_metadata` is flattened into its
two data components (its third key is the run timestamp). -/
structure ReconciliationDecision where
  decision_id : String
  timestamp : String
  observation_ids : List (Option String)
  observation_count : Nat
  data_sources : List String
  field_strategies : List (String × FieldStrategy)
  created_statement_ids : List String
  confidence : ℚ
  decision_method : String
  deriving Repr, DecidableEq

/-- Python `a or b` on two optional strings: `a` unless it is missing or
empty (falsy), else `b`. -/
def pyOrStr (a b : Option String) : Option String :=
  match a with
  | some s => if s = "" then b else some s
  | none => b

/-- `create_reconciliation_decision(observations, canonical,
decision_counter)` (lines 35-108), parameterized by the keys of the external
`FIELD_SCHEMA` dict and by the run timestamp `now`. -/
def create_reconciliation_decision (schemaKeys : List String) (now : String)
    (observations : List Obs) (canonical : CanonicalRecord)
    (decision_counter : Nat) : ReconciliationDecision :=
  let obs_ids := observations.map (fun o => pyOrStr o.observation_id o.id)
  let data_sources := (observations.map (fun o =>
    o.data_source.getD (((o.observer.getD "unknown").splitOn "_v").headI))).dedup
  -- the loop over FIELD_SCHEMA.keys() appends to `field_strategies` and to
  -- `created_statement_ids` exactly for the schema fields present on the
  -- record with a dict value (lines 65-84)
  let field_strategies := schemaKeys.filterMap (fun field_name =>
    match dictGet canonical.fields field_name with
    | some (.obj meta) =>
      some (field_name,
        ({ strategy := meta.reconciliation_method.getD "unknown"
           chosen_obs := meta.source_observation_id.getD "unknown"
           confidence := meta.confidence.getD 1
           alternatives := meta.alternatives.getD [] } : FieldStrategy))
    | _ => none)
  let created_statement_ids := schemaKeys.filterMap (fun field_name =>
    match dictGet canonical.fields field_name with
    | some (.obj _) => some ("attr_" ++ canonical.id ++ "_" ++ field_name)
    | _ => none)
  -- every constructed strategy dict carries a 'confidence' key, so the
  -- comprehension's `if 'confidence' in fs` filter keeps all of them
  let confidences := field_strategies.map (fun p => p.2.confidence)
  let overall_confidence :=
    if confidences.isEmpty then 1
    else confidences.sum / (confidences.length : ℚ)
  { decision_id := "recon_decision_" ++ pad6 decision_counter
    timestamp := now
    observation_ids := obs_ids
    observation_count := observations.length
    data_sources := data_sources
    field_strategies := field_strategies
    created_statement_ids := created_statement_ids
    confidence := overall_confidence
    decision_method := if observations.length = 1 then "single_source"
      else "automated" }

/-! ## Statement id generation (`migrate_to_schema.py`, lines 31-34) -/

/-- `generate_statement_id(prefix, subject_id, predicate)`; the
`datetime.now().strftime("%Y%m%d%H%M%S%f")` call — a timestamp string with
microsecond resolution — is embedded as the explicit parameter `timestamp`. -/
def generate_statement_id (pfx subject_id predicate timestamp : String) :
    String :=
  pfx ++ "_" ++ subject_id ++ "_" ++ predicate ++ "_" ++ timestamp

/-! ## Concrete inputs used by counterexamples and witnesses -/

/-- An entity with five transactions. -/
def entAmazon : Entity :=
  { canonical_name := some "Amazon"
    aliases := some ["AMZN Inc"]
    transaction_count := some 5
    total_amount_usd := some 100 }

/-- An entity with a single transaction. -/
def entAmzn : Entity :=
  { canonical_name := some "AMZN"
    transaction_count := some 1
    total_amount_usd := some 10 }

/-- A second entity with a single transaction. -/
def entAmazonMx : Entity :=
  { canonical_name := some "Amazon MX"
    transaction_count := some 1
    total_amount_usd := some 7 }

/-- A three-entity registry. -/
def exEntities : List (String × Entity) :=
  [("a", entAmazon), ("b", entAmzn), ("c", entAmazonMx)]

/-- Two candidate pairs that both contain the id `"a"`. -/
def exDuplicatesSharedId : List (String × String × ℚ) :=
  [("a", "b", (9 : ℚ)/10), ("a", "c", (4 : ℚ)/5)]

/-- Schema keys for the reconciliation examples. -/
def exSchemaKeys : List String := ["amount", "description", "date"]

/-- Field metadata carrying every key. -/
def exMetaFull : FieldMeta :=
  { reconciliation_method := some "first_source"
    source_observation_id := some "obs_1"
    confidence := some ((4 : ℚ)/5)
    alternatives := some ["obs_2:-42.0"] }

/-- A canonical record whose `"amount"` field is a bare scalar, not a dict of
reconciliation metadata. -/
def exCanonicalScalar : CanonicalRecord :=
  { id := "canon_002", fields := [("amount", FieldValue.scalar)] }

/-- A canonical record with one fully annotated dict field and one dict field
with no metadata keys at all. -/
def exCanonicalDict : CanonicalRecord :=
  { id := "canon_001"
    fields := [("amount", FieldValue.obj exMetaFull),
               ("description", FieldValue.obj {})] }

/-- A single observation. -/
def exObs1 : Obs :=
  { observation_id := some "obs_1", data_source := some "bofa" }

/-- A two-entity run state as at the start of a merge pass. -/
def exState : MergeRunState :=
  { merged_entities := [("a", entAmazon), ("b", entAmzn)]
    merge_log := []
    merged_ids := []
    entity_lineages := []
    lineage_counter := 0 }

/-! ## Association-list dictionary lemmas -/

theorem dictGet_cons {α : Type} (p : String × α) (t : List (String × α))
    (k : String) :
    dictGet (p :: t) k = if p.1 == k then some p.2 else dictGet t k := by
  cases h : (p.1 == k) <;> simp [dictGet, List.find?_cons, h]

theorem dictSet_cons {α : Type} (p : String × α) (t : List (String × α))
    (k : String) (v : α) :
    dictSet (p :: t) k v =
      if p.1 == k then (k, v) :: t else p :: dictSet t k v := rfl

theorem dictGet_dictSet_self {α : Type} (m : List (String × α)) (k : String)
    (v : α) : dictGet (dictSet m k v) k = some v := by
  induction m with
  | nil => simp [dictGet, dictSet]
  | cons p t ih =>
    rw [dictSet_cons]
    cases hb : (p.1 == k) with
    | true => rw [if_pos rfl, dictGet_cons]; simp
    | false =>
      rw [if_neg (by simp [hb]), dictGet_cons, if_neg (by simp [hb])]
      exact ih

theorem dictGet_dictSet_ne {α : Type} (m : List (String × α)) {k k' : String}
    (v : α) (h : k' ≠ k) : dictGet (dictSet m k v) k' = dictGet m k' := by
  have hkk : (k == k') = false := beq_eq_false_iff_ne.mpr (Ne.symm h)
  induction m with
  | nil => simp [dictGet, dictSet, hkk]
  | cons p t ih =>
    rw [dictSet_cons]
    cases hb : (p.1 == k) with
    | true =>
      have hpk : p.1 = k := beq_iff_eq.mp hb
      rw [if_pos rfl, dictGet_cons, dictGet_cons]
      simp [hkk, hpk]
    | false =>
      rw [if_neg (by simp [hb]), dictGet_cons, dictGet_cons]
      cases hb' : (p.1 == k') with
      | true => simp
      | false => simpa [hb'] using ih

theorem dictSet_keys_of_mem {α : Type} {m : List (String × α)} {k : String}
    (v : α) (h : (dictGet m k).isSome) :
    (dictSet m k v).map Prod.fst = m.map Prod.fst := by
  induction m with
  | nil => simp [dictGet] at h
  | cons p t ih =>
    rw [dictSet_cons]
    cases hb : (p.1 == k) with
    | true =>
      have hpk : p.1 = k := beq_iff_eq.mp hb
      rw [if_pos rfl]
      simp [hpk]
    | false =>
      have ht : (dictGet t k).isSome := by
        rw [dictGet_cons, if_neg (by simp [hb])] at h
        exact h
      rw [if_neg (by simp [hb])]
      simp only [List.map_cons]
      rw [ih ht]

/-! ## Merge engine: structural lemmas -/

theorem applyMergePair_ok_shape {now : String} {st st' : MergeRunState}
    {id1 id2 : String} {sim : ℚ} {e1 e2 : Entity}
    (h1 : dictGet st.merged_entities id1 = some e1)
    (h2 : dictGet st.merged_entities id2 = some e2) :
    applyMergePair now st id1 id2 sim = .ok st' →
    st'.merged_entities.map Prod.fst = st.merged_entities.map Prod.fst := by
  intro hok
  unfold applyMergePair at hok
  rw [h1, h2] at hok
  simp only [Except.ok.injEq] at hok
  subst hok
  by_cases hc : e2.transaction_count.getD 0 ≤ e1.transaction_count.getD 0
  · simp only [hc, if_true]
    rw [dictSet_keys_of_mem _ (by
      by_cases hid : id2 = id1
      · subst hid; rw [dictGet_dictSet_self]; rfl
      · rw [dictGet_dictSet_ne _ _ hid, h2]; rfl)]
    rw [dictSet_keys_of_mem _ (by rw [h1]; rfl)]
  · simp only [hc, if_false]
    rw [dictSet_keys_of_mem _ (by
      by_cases hid : id1 = id2
      · subst hid; rw [dictGet_dictSet_self]; rfl
      · rw [dictGet_dictSet_ne _ _ hid, h1]; rfl)]
    rw [dictSet_keys_of_mem _ (by rw [h2]; rfl)]

theorem mergeLoop_keys {now : String} :
    ∀ (dups : List (String × String × ℚ)) (st st' : MergeRunState),
    mergeLoop now dups st = .ok st' →
    st'.merged_entities.map Prod.fst = st.merged_entities.map Prod.fst := by
  intro dups
  induction dups with
  | nil =>
    intro st st' h
    simp only [mergeLoop, Except.ok.injEq] at h
    subst h; rfl
  | cons pair rest ih =>
    intro st st' h
    obtain ⟨id1, id2, sim⟩ := pair
    simp only [mergeLoop] at h
    by_cases hguard : id1 ∈ st.merged_ids ∨ id2 ∈ st.merged_ids
    · rw [if_pos hguard] at h
      exact ih st st' h
    · rw [if_neg hguard] at h
      cases hap : applyMergePair now st id1 id2 sim with
      | error e => rw [hap] at h; cases h
      | ok stMid =>
        rw [hap] at h
        have hkeys := ih stMid st' h
        rw [hkeys]
        -- the apply step succeeded, so both lookups succeeded
        unfold applyMergePair at hap
        cases h1 : dictGet st.merged_entities id1 with
        | none => rw [h1] at hap; cases hap
        | some e1 =>
          cases h2 : dictGet st.merged_entities id2 with
          | none => rw [h1, h2] at hap; cases hap
          | some e2 =>
            exact applyMergePair_ok_shape h1 h2 (by
              unfold applyMergePair; rw [h1, h2]; rw [h1, h2] at hap
              exact hap)

/-! ## Claim theorems on the merge engine -/

/-- C1: the claim says a pair containing an id already consumed by an
earlier applied merge in the same run is skipped.  In the source the
`merged_ids` set is initialized and consulted but never added to, so the
guard never fires: on two pairs both containing `"a"`, both merges are
applied (the merge log records `"a"` as primary twice) and `merged_ids` is
still empty at the end of the run. -/
theorem merged_ids_guard_never_fires :
    (merge_duplicates_with_lineage "T" exEntities exDuplicatesSharedId).toOption.map
      (fun r => (r.merge_log.map (fun e => (e.primary, e.secondary)),
        r.merged_ids))
      = some ([("a", "b"), ("a", "c")], []) := by decide

/-- C2: for an applied merge of two distinct present entities, the primary's
`transaction_count` after the merge is the sum of both counts before it, and
the secondary is still present, marked `status="superseded"` with
`superseded_by` pointing at the primary. -/
theorem applyMergePair_no_data_loss (now : String) (st : MergeRunState)
    (id1 id2 : String) (sim : ℚ) (e1 e2 : Entity)
    (h1 : dictGet st.merged_entities id1 = some e1)
    (h2 : dictGet st.merged_entities id2 = some e2)
    (hne : id1 ≠ id2) :
    ∃ st',
      applyMergePair now st id1 id2 sim = Except.ok st' ∧
      (dictGet st'.merged_entities
        (if e2.transaction_count.getD 0 ≤ e1.transaction_count.getD 0
          then id1 else id2)).map (fun p => p.transaction_count)
        = some (some
          ((if e2.transaction_count.getD 0 ≤ e1.transaction_count.getD 0
              then e1 else e2).transaction_count.getD 0 +
           (if e2.transaction_count.getD 0 ≤ e1.transaction_count.getD 0
              then e2 else e1).transaction_count.getD 0)) ∧
      (dictGet st'.merged_entities
        (if e2.transaction_count.getD 0 ≤ e1.transaction_count.getD 0
          then id2 else id1)).map (fun s => (s.status, s.superseded_by))
        = some (some "superseded",
            some (if e2.transaction_count.getD 0 ≤ e1.transaction_count.getD 0
              then id1 else id2)) := by
  cases hap : applyMergePair now st id1 id2 sim with
  | error e =>
    exfalso
    unfold applyMergePair at hap
    rw [h1, h2] at hap
    by_cases hc : e2.transaction_count.getD 0 ≤ e1.transaction_count.getD 0 <;>
      simp [hc] at hap
  | ok st' =>
    refine ⟨st', ?_⟩
    unfold applyMergePair at hap
    rw [h1, h2] at hap
    by_cases hc : e2.transaction_count.getD 0 ≤ e1.transaction_count.getD 0
    · simp only [if_pos hc, Except.ok.injEq] at hap
      rw [if_neg (Ne.symm hne)] at hap
      subst hap
      simp only [if_pos hc]
      refine ⟨trivial, ?_, ?_⟩
      · rw [dictGet_dictSet_ne _ _ hne, dictGet_dictSet_self]
        rfl
      · rw [dictGet_dictSet_self]
        rfl
    · simp only [if_neg hc, Except.ok.injEq] at hap
      rw [if_neg hne] at hap
      subst hap
      simp only [if_neg hc]
      refine ⟨trivial, ?_, ?_⟩
      · rw [dictGet_dictSet_ne _ _ (Ne.symm hne), dictGet_dictSet_self]
        rfl
      · rw [dictGet_dictSet_self]
        rfl

/-- Witness for C2 at a concrete input: merging `"b"` (1 transaction) into
`"a"` (5 transactions) leaves `"a"` with 6 transactions and `"b"`
superseded by `"a"`. -/
theorem applyMergePair_no_data_loss_witness :
    dictGet exState.merged_entities "a" = some entAmazon ∧
    dictGet exState.merged_entities "b" = some entAmzn ∧
    "a" ≠ "b" ∧
    (∃ st',
      applyMergePair "T" exState "a" "b" ((9 : ℚ)/10) = Except.ok st' ∧
      (dictGet st'.merged_entities "a").map (fun p => p.transaction_count)
        = some (some 6) ∧
      (dictGet st'.merged_entities "b").map (fun s => (s.status, s.superseded_by))
        = some (some "superseded", some "a")) :=
  ⟨rfl, rfl, by decide,
    applyMergePair_no_data_loss "T" exState "a" "b" ((9 : ℚ)/10)
      entAmazon entAmzn rfl rfl (by decide)⟩

/-- C5 counterexample: the claim says a pair referencing an absent id is
skipped with a warning and never aborts the run.  In the source the lookup
`merged_entities[id2]` raises `KeyError` (embedded as `Except.error`), so a
single pair naming the absent id `"b"` aborts the whole run instead of
being skipped. -/
theorem missing_id_pair_raises_keyerror :
    merge_duplicates_with_lineage "T" [("a", entAmazon)]
      [("a", "b", (9 : ℚ)/10)] = Except.error "b" := rfl

/-- C5 amended: a pair whose first or second id is absent from the
collection makes the merge pass abort with a `KeyError` naming an absent
id; the remaining pairs are not processed. -/
theorem mergeLoop_missing_id_aborts (now : String)
    (entities : List (String × Entity)) (id1 id2 : String) (sim : ℚ)
    (rest : List (String × String × ℚ))
    (h : dictGet entities id1 = none ∨ dictGet entities id2 = none) :
    ∃ k, merge_duplicates_with_lineage now entities ((id1, id2, sim) :: rest)
        = Except.error k ∧ dictGet entities k = none := by
  unfold merge_duplicates_with_lineage
  simp only [mergeLoop, List.not_mem_nil, or_self, if_false]
  cases h1 : dictGet entities id1 with
  | none =>
    refine ⟨id1, ?_, h1⟩
    have hap : applyMergePair now
        ⟨entities, [], [], [], 0⟩ id1 id2 sim = Except.error id1 := by
      unfold applyMergePair
      rw [show dictGet (⟨entities, [], [], [], 0⟩ :
        MergeRunState).merged_entities id1 = none from h1]
    rw [hap]
  | some e1 =>
    rcases h with ha | hb
    · rw [h1] at ha; cases ha
    · refine ⟨id2, ?_, hb⟩
      have hap : applyMergePair now
          ⟨entities, [], [], [], 0⟩ id1 id2 sim = Except.error id2 := by
        unfold applyMergePair
        rw [show dictGet (⟨entities, [], [], [], 0⟩ :
          MergeRunState).merged_entities id1 = some e1 from h1]
        rw [show dictGet (⟨entities, [], [], [], 0⟩ :
          MergeRunState).merged_entities id2 = none from hb]
      rw [hap]

/-- Witness for the amended C5 at a concrete input. -/
theorem mergeLoop_missing_id_aborts_witness :
    (dictGet [("a", entAmazon)] "a" = none ∨
      dictGet [("a", entAmazon)] "b" = none) ∧
    ∃ k, merge_duplicates_with_lineage "T" [("a", entAmazon)]
        [("a", "b", (9 : ℚ)/10)] = Except.error k ∧
      dictGet [("a", entAmazon)] k = none :=
  ⟨Or.inr (by decide),
    mergeLoop_missing_id_aborts "T" [("a", entAmazon)] "a" "b" ((9 : ℚ)/10)
      [] (Or.inr (by decide))⟩

/-- C9: the claim says the lineage metadata records the secondary's
transaction count regardless of which element of the pair the secondary is.
The source stores `tx_count2` — the count of the pair's second element —
so when the secondary is the first element (here `"a"`, 1 transaction,
merged into `"b"` with 5) the metadata records the primary's count 5 while
`amount_transferred` correctly uses the secondary's amount 10.  The other
lineage fields do match the claim. -/
theorem lineage_transferred_count_uses_second_element :
    (merge_duplicates_with_lineage "T" [("a", entAmzn), ("b", entAmazon)]
      [("a", "b", (9 : ℚ)/10)]).toOption.map
      (fun r => r.entity_lineages.map (fun l =>
        (l.old_entity_id, l.new_entity_id, l.operation, l.performed_by,
         l.confidence, l.metadata.merged_canonical_name,
         l.metadata.transaction_count_transferred,
         l.metadata.amount_transferred)))
      = some [("a", "b", "merge", "automated_merge", (9 : ℚ)/10,
          some "AMZN", 5, 10)] ∧
    entAmzn.transaction_count.getD 0 = 1 := ⟨rfl, rfl⟩

/-- C10: a completed merge pass never removes a key: the output collection
has exactly the input's entity ids (even in order), so the merge report's
`entities_after` equals `entities_before` and `entities_merged`, computed as
their difference, is 0 even when merges were applied. -/
theorem merge_pass_preserves_entity_ids (now : String)
    (entities : List (String × Entity))
    (duplicates : List (String × String × ℚ)) (st' : MergeRunState)
    (hok : merge_duplicates_with_lineage now entities duplicates
      = Except.ok st') :
    st'.merged_entities.map Prod.fst = entities.map Prod.fst ∧
    (mkMergeReport entities st'.merged_entities duplicates
      st'.entity_lineages).entities_after
      = (mkMergeReport entities st'.merged_entities duplicates
        st'.entity_lineages).entities_before ∧
    (mkMergeReport entities st'.merged_entities duplicates
      st'.entity_lineages).entities_merged = 0 := by
  have hkeys := mergeLoop_keys duplicates _ st' hok
  have hlen : st'.merged_entities.length = entities.length := by
    have hcg := congrArg List.length hkeys
    simpa using hcg
  refine ⟨hkeys, ?_, ?_⟩ <;> simp [mkMergeReport, hlen]

/-- Witness for C10 at a concrete input on which two merges were applied. -/
theorem merge_pass_preserves_entity_ids_witness :
    ∃ st', merge_duplicates_with_lineage "T" exEntities exDuplicatesSharedId
        = Except.ok st' ∧
      st'.merged_entities.map Prod.fst = exEntities.map Prod.fst ∧
      (mkMergeReport exEntities st'.merged_entities exDuplicatesSharedId
        st'.entity_lineages).entities_merged = 0 := by
  refine ⟨_, rfl, ?_, ?_⟩
  · exact (merge_pass_preserves_entity_ids "T" exEntities
      exDuplicatesSharedId _ rfl).1
  · exact (merge_pass_preserves_entity_ids "T" exEntities
      exDuplicatesSharedId _ rfl).2.2

/-! ## Lineage resolver: helper lemmas -/

theorem findNewer_mem_news {ledger : List EntityLineage} {cur next : String}
    (h : findNewer ledger cur = some next) : next ∈ newsFinset ledger := by
  unfold findNewer at h
  cases hf : ledger.find? (fun r => r.old_entity_id == cur) with
  | none => rw [hf] at h; cases h
  | some r =>
    rw [hf] at h
    simp only [Option.map_some', Option.some.injEq] at h
    have hr : r ∈ ledger := List.mem_of_find?_eq_some hf
    subst h
    exact List.mem_toFinset.mpr (List.mem_map_of_mem _ hr)

theorem resolveAux_of_mem {ledger : List EntityLineage} {cur : String}
    {visited : Finset String} (h : cur ∈ visited) :
    resolveAux ledger cur visited = cur := by
  rw [resolveAux]
  rw [dif_pos h]

theorem resolveAux_of_none {ledger : List EntityLineage} {cur : String}
    {visited : Finset String} (h : cur ∉ visited)
    (hf : findNewer ledger cur = none) :
    resolveAux ledger cur visited = cur := by
  rw [resolveAux, dif_neg h]
  split
  · rfl
  · next nx heq => rw [hf] at heq; cases heq

theorem resolveAux_of_some {ledger : List EntityLineage} {cur next : String}
    {visited : Finset String} (h : cur ∉ visited)
    (hf : findNewer ledger cur = some next) :
    resolveAux ledger cur visited
      = resolveAux ledger next (insert cur visited) := by
  rw [resolveAux, dif_neg h]
  split
  · next heq => rw [hf] at heq; cases heq
  · next nx heq =>
    rw [hf] at heq
    cases heq
    rfl

theorem resolver_measure_decreases {ledger : List EntityLineage}
    {cur next : String} {visited : Finset String}
    (hnv : cur ∉ visited) (hstep : findNewer ledger cur = some next) :
    ((insert next (newsFinset ledger)) \ (insert cur visited)).card <
      ((insert cur (newsFinset ledger)) \ visited).card := by
  have hins : insert next (newsFinset ledger) = newsFinset ledger :=
    Finset.insert_eq_self.mpr (findNewer_mem_news hstep)
  rw [hins]
  apply Finset.card_lt_card
  constructor
  · intro x hx
    rw [Finset.mem_sdiff] at hx ⊢
    exact ⟨Finset.mem_insert_of_mem hx.1,
      fun hv => hx.2 (Finset.mem_insert_of_mem hv)⟩
  · intro hsub
    have hcur := hsub (Finset.mem_sdiff.mpr ⟨Finset.mem_insert_self _ _, hnv⟩)
    rw [Finset.mem_sdiff] at hcur
    exact hcur.2 (Finset.mem_insert_self _ _)

theorem resolveFuel_eq_resolveAux (ledger : List EntityLineage) :
    ∀ (fuel : Nat) (cur : String) (visited : Finset String),
    ((insert cur (newsFinset ledger)) \ visited).card ≤ fuel →
    resolveFuel ledger fuel cur visited = resolveAux ledger cur visited := by
  intro fuel
  induction fuel with
  | zero =>
    intro cur visited h
    by_cases hv : cur ∈ visited
    · rw [resolveAux_of_mem hv]; rfl
    · exfalso
      have hmem : cur ∈ (insert cur (newsFinset ledger)) \ visited :=
        Finset.mem_sdiff.mpr ⟨Finset.mem_insert_self _ _, hv⟩
      have := Finset.card_pos.mpr ⟨cur, hmem⟩
      omega
  | succ fuel ih =>
    intro cur visited h
    by_cases hv : cur ∈ visited
    · rw [resolveAux_of_mem hv]
      simp [resolveFuel, hv]
    · cases hf : findNewer ledger cur with
      | none =>
        rw [resolveAux_of_none hv hf]
        simp [resolveFuel, hv, hf]
      | some next =>
        rw [resolveAux_of_some hv hf]
        have hred : resolveFuel ledger (fuel + 1) cur visited
            = resolveFuel ledger fuel next (insert cur visited) := by
          simp [resolveFuel, hv, hf]
        rw [hred]
        apply ih
        have := resolver_measure_decreases hv hf
        omega

theorem iterNewer_one (ledger : List EntityLineage) {cur next : String}
    (h : findNewer ledger cur = some next) :
    iterNewer ledger 1 cur = some next := by
  simp [iterNewer, h]

theorem iterNewer_succ_left (ledger : List EntityLineage) (n : Nat)
    (cur : String) :
    iterNewer ledger (n + 1) cur
      = (findNewer ledger cur).bind (iterNewer ledger n) := by
  cases h : findNewer ledger cur <;> simp [iterNewer, h]

theorem iterNewer_add (ledger : List EntityLineage) (a b : Nat)
    (cur : String) :
    iterNewer ledger (a + b) cur
      = (iterNewer ledger a cur).bind (iterNewer ledger b) := by
  induction a generalizing cur with
  | zero => simp [iterNewer]
  | succ a ih =>
    have hshift : a + 1 + b = (a + b) + 1 := by omega
    rw [hshift, iterNewer_succ_left, iterNewer_succ_left]
    cases h : findNewer ledger cur with
    | none => simp
    | some w => simp [ih]

theorem iterNewer_compose {ledger : List EntityLineage} {n m : Nat}
    {v c d : String} (h1 : iterNewer ledger n v = some c)
    (h2 : iterNewer ledger m c = some d) :
    iterNewer ledger (n + m) v = some d := by
  rw [iterNewer_add, h1]
  exact h2

/-- The resolver's return value is either a fixed point of the edge map (no
outgoing lineage edge) or lies on a cycle of the walk, provided every
already-visited id reaches the current one. -/
theorem resolveAux_fix_or_cycle (ledger : List EntityLineage) :
    ∀ (cur : String) (visited : Finset String),
    (∀ v ∈ visited, ∃ n, 0 < n ∧ iterNewer ledger n v = some cur) →
    findNewer ledger (resolveAux ledger cur visited) = none ∨
    ∃ n, 0 < n ∧ iterNewer ledger n (resolveAux ledger cur visited)
      = some (resolveAux ledger cur visited) := by
  intro cur visited
  induction cur, visited using resolveAux.induct ledger with
  | case1 cur visited hmem =>
    intro hinv
    rw [resolveAux_of_mem hmem]
    exact Or.inr (hinv cur hmem)
  | case2 cur visited hnmem hnone =>
    intro _
    rw [resolveAux_of_none hnmem hnone]
    exact Or.inl hnone
  | case3 cur visited hnmem next hsome ih =>
    intro hinv
    rw [resolveAux_of_some hnmem hsome]
    apply ih
    intro v hv
    rcases Finset.mem_insert.mp hv with hveq | hvmem
    · subst hveq
      exact ⟨1, by omega, iterNewer_one ledger hsome⟩
    · obtain ⟨n, hn, hiter⟩ := hinv v hvmem
      exact ⟨n + 1, by omega,
        iterNewer_compose hiter (iterNewer_one ledger hsome)⟩

theorem pathFinset_zero (ledger : List EntityLineage) (r : String) :
    pathFinset ledger r 0 = ∅ := rfl

theorem mem_pathFinset {ledger : List EntityLineage} {r x : String}
    {k : Nat} :
    x ∈ pathFinset ledger r k ↔ ∃ i < k, iterNewer ledger i r = some x := by
  simp [pathFinset, List.mem_filterMap, List.mem_range]

theorem pathFinset_succ {ledger : List EntityLineage} {r c : String} {k : Nat}
    (h : iterNewer ledger k r = some c) :
    pathFinset ledger r (k + 1) = insert c (pathFinset ledger r k) := by
  unfold pathFinset
  rw [List.range_succ, List.filterMap_append, List.toFinset_append]
  ext x
  simp [h, or_comm]

/-- Walking the resolver loop from a point of a minimal cycle, with exactly
the ids already passed in the visited set, comes back to the start. -/
theorem resolveAux_cycle_aux (ledger : List EntityLineage) (r : String)
    (n : Nat) (hn : 0 < n) (hcyc : iterNewer ledger n r = some r)
    (hmin : ∀ m, 0 < m → m < n → iterNewer ledger m r ≠ some r) :
    ∀ (j k : Nat) (c : String), k + j = n → iterNewer ledger k r = some c →
    resolveAux ledger c (pathFinset ledger r k) = r := by
  intro j
  induction j with
  | zero =>
    intro k c hk hc
    have hkn : k = n := by omega
    subst hkn
    have hcr : c = r := by
      rw [hc] at hcyc
      exact ((Option.some.injEq _ _).mp hcyc.symm).symm
    subst hcr
    have hmem : c ∈ pathFinset ledger c k := by
      rw [mem_pathFinset]
      exact ⟨0, hn, rfl⟩
    rw [resolveAux_of_mem hmem]
  | succ j ih =>
    intro k c hk hc
    have hkn : k < n := by omega
    have hsuffix : iterNewer ledger (j + 1) c = some r := by
      have hsplit : iterNewer ledger (k + (j + 1)) r
          = (iterNewer ledger k r).bind (iterNewer ledger (j + 1)) :=
        iterNewer_add ledger k (j + 1) r
      rw [hk] at hsplit
      rw [hcyc, hc] at hsplit
      exact hsplit.symm
    have hnotmem : c ∉ pathFinset ledger r k := by
      intro hmem
      obtain ⟨i, hik, hi⟩ := mem_pathFinset.mp hmem
      have hback : iterNewer ledger (i + (j + 1)) r = some r :=
        iterNewer_compose hi hsuffix
      exact hmin (i + (j + 1)) (by omega) (by omega) hback
    rw [iterNewer_succ_left] at hsuffix
    cases hf : findNewer ledger c with
    | none => rw [hf] at hsuffix; cases hsuffix
    | some next =>
      rw [hf] at hsuffix
      simp only [Option.some_bind] at hsuffix
      have hnextIter : iterNewer ledger (k + 1) r = some next :=
        iterNewer_compose hc (iterNewer_one ledger hf)
      rw [resolveAux_of_some hnotmem hf, ← pathFinset_succ hc]
      exact ih (k + 1) next (by omega) hnextIter

/-- A fresh resolver run started at a point of a cycle of the lineage walk
returns that very point. -/
theorem resolveAux_cycle (ledger : List EntityLineage) (r : String)
    (h : ∃ n, 0 < n ∧ iterNewer ledger n r = some r) :
    resolveAux ledger r ∅ = r := by
  have hn := Nat.find_spec h
  have hrun := resolveAux_cycle_aux ledger r (Nat.find h) hn.1 hn.2
    (fun m hm hmn hcontra => Nat.find_min h hmn ⟨hm, hcontra⟩)
    (Nat.find h) 0 r (by omega) rfl
  rwa [pathFinset_zero] at hrun

/-! ## Claim theorems on the lineage resolver -/

/-- C3: resolving twice equals resolving once, for every lineage ledger and
every starting id — both when the walk ends at an id with no outgoing edge
and when it stops upon revisiting an id of a cycle. -/
theorem resolve_current_entity_id_idempotent (ledger : List EntityLineage)
    (e : String) :
    resolve_current_entity_id ledger (resolve_current_entity_id ledger e)
      = resolve_current_entity_id ledger e := by
  unfold resolve_current_entity_id
  rcases resolveAux_fix_or_cycle ledger e ∅ (by simp) with hfix | hcyc
  · exact resolveAux_of_none (Finset.not_mem_empty _) hfix
  · exact resolveAux_cycle ledger _ hcyc

/-- C4: the resolver loop terminates on every input, cyclic ledgers
included: on any ledger it exits within `ledger.length + 1` iterations of the
`while` loop (each `resolveFuel` step is one iteration; the visited set stops
the walk at the first revisited id), returning the id the loop ended on. -/
theorem resolve_terminates_within_bounded_iterations
    (ledger : List EntityLineage) (entity_id : String) :
    resolveFuel ledger (ledger.length + 1) entity_id ∅
      = resolve_current_entity_id ledger entity_id := by
  unfold resolve_current_entity_id
  apply resolveFuel_eq_resolveAux
  rw [Finset.sdiff_empty]
  calc (insert entity_id (newsFinset ledger)).card
      ≤ (newsFinset ledger).card + 1 := Finset.card_insert_le _ _
    _ ≤ ledger.length + 1 := by
        have h1 : (newsFinset ledger).card ≤
            (ledger.map (fun r => r.new_entity_id)).length :=
          List.toFinset_card_le _
        rw [List.length_map] at h1
        omega

/-! ## Claim theorems on the reconciliation decision builder -/

/-- C6: the decision's overall confidence is the arithmetic mean of the
per-field confidences collected into `field_strategies`, and `1.0` when none
were collected — the empty collection takes the guard branch, never a
division by zero. -/
theorem decision_confidence_is_mean_of_field_confidences
    (schemaKeys : List String) (now : String) (observations : List Obs)
    (canonical : CanonicalRecord) (decision_counter : Nat) :
    (create_reconciliation_decision schemaKeys now observations canonical
      decision_counter).confidence =
      if ((create_reconciliation_decision schemaKeys now observations
          canonical decision_counter).field_strategies.map
            (fun p => p.2.confidence)) = []
      then 1
      else ((create_reconciliation_decision schemaKeys now observations
          canonical decision_counter).field_strategies.map
            (fun p => p.2.confidence)).sum /
        (((create_reconciliation_decision schemaKeys now observations
          canonical decision_counter).field_strategies.map
            (fun p => p.2.confidence)).length : ℚ) := by
  unfold create_reconciliation_decision
  dsimp only
  by_cases h : (schemaKeys.filterMap (fun field_name =>
      match dictGet canonical.fields field_name with
      | some (.obj meta) =>
        some (field_name,
          ({ strategy := meta.reconciliation_method.getD "unknown"
             chosen_obs := meta.source_observation_id.getD "unknown"
             confidence := meta.confidence.getD 1
             alternatives := meta.alternatives.getD [] } : FieldStrategy))
      | _ => none)).map (fun p => p.2.confidence) = []
  · simp [h]
  · simp [h]

/-- C7 counterexample: the claim says every schema field present on the
canonical record gets a field-strategy entry and a synthesized statement id.
A schema field present with a bare scalar value (not a dict) is silently
omitted: the `isinstance(field_data, dict)` branch is the only one that
records anything, and there is no else-branch. -/
theorem scalar_field_silently_omitted :
    ("amount" ∈ exSchemaKeys) ∧
    dictGet exCanonicalScalar.fields "amount" = some FieldValue.scalar ∧
    (create_reconciliation_decision exSchemaKeys "T" [exObs1]
      exCanonicalScalar 0).field_strategies = [] ∧
    (create_reconciliation_decision exSchemaKeys "T" [exObs1]
      exCanonicalScalar 0).created_statement_ids = [] := by decide

/-- C7 amended: every schema field present on the canonical record **with a
dict value** gets a field-strategy entry — strategy defaulting to
`"unknown"`, confidence to `1.0` and alternatives to empty when the
corresponding metadata keys are missing — and the synthesized statement id
`attr_<record id>_<field>` is recorded in `created_statement_ids`; fields
present with non-dict values are skipped. -/
theorem dict_field_recorded_with_defaults (schemaKeys : List String)
    (now : String) (observations : List Obs) (canonical : CanonicalRecord)
    (decision_counter : Nat) (field_name : String) (meta : FieldMeta)
    (hmem : field_name ∈ schemaKeys)
    (hfield : dictGet canonical.fields field_name
      = some (FieldValue.obj meta)) :
    ((field_name,
      ({ strategy := meta.reconciliation_method.getD "unknown"
         chosen_obs := meta.source_observation_id.getD "unknown"
         confidence := meta.confidence.getD 1
         alternatives := meta.alternatives.getD [] } : FieldStrategy))
      ∈ (create_reconciliation_decision schemaKeys now observations
          canonical decision_counter).field_strategies) ∧
    ("attr_" ++ canonical.id ++ "_" ++ field_name)
      ∈ (create_reconciliation_decision schemaKeys now observations
          canonical decision_counter).created_statement_ids := by
  unfold create_reconciliation_decision
  dsimp only
  constructor
  · exact List.mem_filterMap.mpr ⟨field_name, hmem, by rw [hfield]⟩
  · exact List.mem_filterMap.mpr ⟨field_name, hmem, by rw [hfield]⟩

/-- Witness for the amended C7: the `"description"` field of the example
record carries an empty metadata dict, so its entry holds the sentinel
strategy `"unknown"`, confidence `1.0` and no alternatives. -/
theorem dict_field_recorded_with_defaults_witness :
    ("description" ∈ exSchemaKeys) ∧
    dictGet exCanonicalDict.fields "description"
      = some (FieldValue.obj {}) ∧
    ((("description",
      ({ strategy := "unknown", chosen_obs := "unknown", confidence := 1,
         alternatives := [] } : FieldStrategy))
      ∈ (create_reconciliation_decision exSchemaKeys "T" [exObs1]
          exCanonicalDict 0).field_strategies) ∧
     ("attr_canon_001_description"
      ∈ (create_reconciliation_decision exSchemaKeys "T" [exObs1]
          exCanonicalDict 0).created_statement_ids)) :=
  ⟨by decide, rfl,
    dict_field_recorded_with_defaults exSchemaKeys "T" [exObs1]
      exCanonicalDict 0 "description" {} (by decide) rfl⟩

/-! ## Claim theorem on statement id generation -/

/-- C8: the claim says distinct generation calls yield distinct statement
ids, including under rapid successive generation.  The id is derived solely
from the prefix, subject, predicate and a timestamp of microsecond
resolution, so two successive calls for the same subject and predicate
within the same microsecond receive the same timestamp string and the list
of their two ids has a duplicate. -/
theorem generate_statement_id_collision :
    ¬ ([generate_statement_id "attr" "evt_canon_001" "amount"
          "20251012120000000000",
        generate_statement_id "attr" "evt_canon_001" "amount"
          "20251012120000000000"] : List String).Nodup := by decide

end PersonalOS
